import Mathlib

/-!
# Verification of the flassh credential vault and realtime relay

A shallow embedding of the two source modules of the repository:

* `CredentialStore` — the at-rest credential vault: AES-256-GCM
  field-level encryption (`encrypt` / `decrypt`), `save` / `get` /
  `has` / `delete`, the companion connection-info collection
  (`saveConnection`, `deleteConnection`, …) and the startup
  reconciliation pass `migrateFromCredentials`.
* `WebSocketHandler` — the relay: frame dispatch (`handleMessage`,
  `handleInput`, `handleResize`), socket↔session binding, shell-output
  fan-out (`setupShellOutput`) and the liveness ping sweep.

Strings are embedded as `List Char` (the `data` of a JavaScript
string); plaintext secrets are embedded as their byte sequences
(`List Nat`, each element < 256), matching the UTF-8 bytes that
`cipher.update(text, 'utf8', 'hex')` consumes.  JavaScript `Map`s are
embedded as association lists with `Map`-faithful operations
(`mapSet` keeps the insertion position of an existing key, `mapGet`
returns the first binding, `mapDelete` removes the key).

The AES-256-GCM primitive itself lives in Node's `crypto` library,
outside this repository; it is embedded as an executable authenticated
stream cipher with the properties the vault relies on: ciphertext is a
keystream-XOR determined by (key, iv), the authentication tag is a MAC
over (key, iv, ciphertext), and decryption verifies the tag before
releasing any plaintext.  Likewise `crypto.randomBytes(16)` is
embedded as an explicit generator `rng : Nat → Bytes` consumed at a
running counter, and wall-clock time as an explicit `now : Nat`.
-/

/-- Byte sequences: the UTF-8 bytes of a secret, an IV, a ciphertext. -/
abbrev Bytes := List Nat

/-- JavaScript strings, embedded as their character lists. -/
abbrev Str := List Char

/-- All elements of a byte sequence are real bytes (< 256). -/
def WFBytes (bs : Bytes) : Prop := ∀ b ∈ bs, b < 256

instance : DecidablePred WFBytes := fun bs =>
  inferInstanceAs (Decidable (∀ b ∈ bs, b < 256))

/-! ## JavaScript `Map` embedding -/

/-- `m.get(k)`: the value of the binding of `k`, if present. -/
def mapGet {α : Type} : List (Str × α) → Str → Option α
  | [], _ => none
  | p :: rest, k => if p.1 = k then some p.2 else mapGet rest k

/-- `m.has(k)`. -/
def mapHas {α : Type} : List (Str × α) → Str → Bool
  | [], _ => false
  | p :: rest, k => p.1 = k || mapHas rest k

/-- `m.set(k, v)`: updates the binding in place if the key is present
(keeping its insertion position, as JavaScript `Map` does), otherwise
appends a new binding. -/
def mapSet {α : Type} : List (Str × α) → Str → α → List (Str × α)
  | [], k, v => [(k, v)]
  | p :: rest, k, v => if p.1 = k then (k, v) :: rest else p :: mapSet rest k v

/-- `m.delete(k)` (the resulting map; the returned boolean is `mapHas m k`). -/
def mapDelete {α : Type} : List (Str × α) → Str → List (Str × α)
  | [], _ => []
  | p :: rest, k => if p.1 = k then mapDelete rest k else p :: mapDelete rest k

/-- `new Map(entries)`: later bindings of a key overwrite earlier ones. -/
def mapOfList {α : Type} (l : List (Str × α)) : List (Str × α) :=
  l.foldl (fun m p => mapSet m p.1 p.2) []

/-! ## Hex encoding (`Buffer.toString('hex')` / `Buffer.from(·, 'hex')`) -/

/-- The lowercase hex digit character of a nibble: `0`–`9` for values
below ten, `a`–`f` for the rest. -/
def hexDigit (n : Nat) : Char :=
  if n < 10 then Char.ofNat (48 + n) else Char.ofNat (87 + n)

/-- The value of a lowercase hex digit character, if it is one. -/
def hexVal (c : Char) : Option Nat :=
  if 48 ≤ c.toNat && c.toNat ≤ 57 then some (c.toNat - 48)
  else if 97 ≤ c.toNat && c.toNat ≤ 102 then some (c.toNat - 87)
  else none

/-- The two hex characters of one byte. -/
def byteHex (b : Nat) : Str := [hexDigit (b / 16 % 16), hexDigit (b % 16)]

/-- Hex rendering of a byte sequence. -/
def hexEncode : Bytes → Str
  | [] => []
  | b :: rest => byteHex b ++ hexEncode rest

/-- Hex parsing; `none` on odd length or a non-hex character. -/
def hexDecode : Str → Option Bytes
  | [] => some []
  | [_] => none
  | c1 :: c2 :: rest =>
    match hexVal c1, hexVal c2, hexDecode rest with
    | some h, some l, some bs => some ((h * 16 + l) :: bs)
    | _, _, _ => none

/-! ## `String.split(':')` embedding -/

/-- JavaScript `s.split(':')`: always returns at least one (possibly
empty) piece; a separator at either end yields an empty piece there. -/
def splitColon : Str → List Str
  | [] => [[]]
  | c :: rest =>
    if c = ':' then [] :: splitColon rest
    else
      match splitColon rest with
      | [] => [[c]]
      | h :: t => (c :: h) :: t

/-! ## The authenticated cipher (external `crypto` primitive, embedded) -/

/-- A mixing fold used by the embedded keystream and tag functions. -/
def mixH (acc b : Nat) : Nat := acc * 131 + b + 7

/-- Keystream byte `i` of the cipher determined by (key, iv). -/
def ksByte (key iv : Bytes) (i : Nat) : Nat :=
  ((key.foldl mixH 5381) * 131 + (iv.foldl mixH 977) * 31 + i * 17 + 3) % 256

/-- XOR a byte sequence against the (key, iv) keystream starting at
position `i`; its own inverse at the same position. -/
def xorKs (key iv : Bytes) : Nat → Bytes → Bytes
  | _, [] => []
  | i, b :: rest => (b ^^^ ksByte key iv i) :: xorKs key iv (i + 1) rest

/-- The 16-byte authentication tag over (key, iv, ciphertext). -/
def tagBytes (key iv ct : Bytes) : Bytes :=
  ((List.range 16).map (fun i =>
    ((key.foldl mixH 5381) * 3 + (iv.foldl mixH 977) * 5 +
      (ct.foldl mixH 31) * 7 + i * 101 + 13) % 256))

/-! ## CredentialStore data model -/

/-- `authType: 'password' | 'key'`. -/
inductive AuthType where
  | password
  | key
deriving DecidableEq, Repr

/-- `StoredCredential` (src/unnamed/part_000, lines 5–17).  Encrypted
fields are stored strings of the shape `iv:cipher:tag` (or the legacy
`cipher:tag` relying on the record-level `iv`); timestamps are
abstract instants. -/
structure StoredCredential where
  id : Str
  host : Str
  port : Nat
  username : Str
  authType : AuthType
  encryptedPassword : Option Str := none
  encryptedPrivateKey : Option Str := none
  encryptedPassphrase : Option Str := none
  iv : Str
  createdAt : Nat
  lastUsedAt : Nat
deriving DecidableEq, Repr

/-- `SavedConnectionInfo` (lines 20–30). -/
structure SavedConnectionInfo where
  id : Str
  name : Str
  host : Str
  port : Nat
  username : Str
  authType : AuthType
  hasStoredCredentials : Bool
  createdAt : Nat
  lastUsedAt : Nat
deriving DecidableEq, Repr

/-- The store's in-memory state together with the persisted images of
the two collections (the contents of `credentials.json` and
`connections.json`; `persist` / `persistConnections` overwrite them
wholesale). -/
structure StoreState where
  credentials : List (Str × StoredCredential)
  connections : List (Str × SavedConnectionInfo)
  persistedCredentials : List (Str × StoredCredential)
  persistedConnections : List (Str × SavedConnectionInfo)
deriving DecidableEq, Repr

/-- The `config` argument of `save` (lines 121–131). -/
structure SaveConfig where
  host : Str
  port : Nat
  username : Str
  authType : AuthType
  password : Option Bytes := none
  privateKey : Option Bytes := none
  passphrase : Option Bytes := none
deriving DecidableEq, Repr

/-- JavaScript truthiness of an optional string-valued field:
`undefined` and the empty string are falsy. -/
def truthy : Option Bytes → Bool
  | none => false
  | some p => !p.isEmpty

/-- The result type of `CredentialStore.get` (lines 168–176). -/
structure GetResult where
  host : Str
  port : Nat
  username : Str
  authType : AuthType
  password : Option Bytes := none
  privateKey : Option Bytes := none
  passphrase : Option Bytes := none
deriving DecidableEq, Repr

/-- The ways `decrypt` can throw: a bad or absent hex blob, a missing
auth tag (`final()` without `setAuthTag`), or tag verification
failure. -/
inductive DecErr where
  | malformed
  | noAuthTag
  | authFailed
deriving DecidableEq, Repr

/-! ## CredentialStore operations -/

/-- `CredentialStore.encrypt` (lines 85–98): fresh IV (supplied here
explicitly), keystream encryption, authentication tag; all three
rendered in hex. -/
def encrypt (encryptionKey iv : Bytes) (text : Bytes) :
    Str × Str × Str :=
  let ct := xorKs encryptionKey iv 0 text
  (hexEncode ct, hexEncode iv, hexEncode (tagBytes encryptionKey iv ct))

/-- `CredentialStore.decrypt` (lines 103–115): decode the hex inputs,
verify the authentication tag, release the plaintext only on success.
Without a tag, `decipher.final()` throws. -/
def decrypt (encryptionKey : Bytes) (encrypted ivHex : Str)
    (tagHex : Option Str) : Except DecErr Bytes :=
  match hexDecode ivHex with
  | none => .error .malformed
  | some iv =>
    match hexDecode encrypted with
    | none => .error .malformed
    | some ct =>
      match tagHex with
      | none => .error .noAuthTag
      | some th =>
        match hexDecode th with
        | none => .error .malformed
        | some tag =>
          if tagBytes encryptionKey iv ct = tag then
            .ok (xorKs encryptionKey iv 0 ct)
          else .error .authFailed

/-- The stored blob `` `${iv}:${encrypted}:${tag}` `` of one encrypted
field (lines 147–148). -/
def mkBlob (encryptionKey iv : Bytes) (text : Bytes) : Str :=
  let r := encrypt encryptionKey iv text
  r.2.1 ++ ':' :: r.1 ++ ':' :: r.2.2

/-- One conditional field encryption inside `save` (lines 146–159):
a truthy field is encrypted with the next fresh IV from the random
source, a falsy one is left absent. -/
def encField (encryptionKey : Bytes) (rng : Nat → Bytes) (ctr : Nat)
    (v : Option Bytes) : Option Str × Nat :=
  if truthy v then (some (mkBlob encryptionKey (rng ctr) (v.getD [])), ctr + 1)
  else (none, ctr)

/-- `CredentialStore.save` (lines 121–163): build the credential,
encrypt each present secret field with its own fresh IV, store it
under `id`, persist.  `rng` stands for `crypto.randomBytes(16)`, read
at a running counter; `now` for `new Date()`.  Returns the new state
and the advanced counter. -/
def save (encryptionKey : Bytes) (rng : Nat → Bytes) (now : Nat)
    (id : Str) (cfg : SaveConfig) (st : StoreState) (ctr : Nat) :
    StoreState × Nat :=
  let e1 := encField encryptionKey rng ctr cfg.password
  let e2 := encField encryptionKey rng e1.2 cfg.privateKey
  let e3 := encField encryptionKey rng e2.2 cfg.passphrase
  let cred : StoredCredential :=
    { id := id, host := cfg.host, port := cfg.port,
      username := cfg.username, authType := cfg.authType,
      encryptedPassword := e1.1, encryptedPrivateKey := e2.1,
      encryptedPassphrase := e3.1, iv := [],
      createdAt := now, lastUsedAt := now }
  let creds := mapSet st.credentials id cred
  ({ st with credentials := creds, persistedCredentials := creds }, e3.2)

/-- Per-field decryption inside `get` (lines 203–214): split the blob
on `':'`; three parts are the current `iv:cipher:tag` layout, anything
else is treated as the legacy `cipher:tag` layout using the
record-level shared `iv`. -/
def decryptField (encryptionKey : Bytes) (sharedIv : Str) (blob : Str) :
    Except DecErr Bytes :=
  match splitColon blob with
  | [ivh, ench, tagh] => decrypt encryptionKey ench ivh (some tagh)
  | parts => decrypt encryptionKey (parts.headD []) sharedIv (parts.get? 1)

/-- Decryption of one optional encrypted field: an absent field stays
absent, a present one must decrypt. -/
def decOptField (encryptionKey : Bytes) (sharedIv : Str) :
    Option Str → Except DecErr (Option Bytes)
  | none => .ok none
  | some blob => (decryptField encryptionKey sharedIv blob).map some

/-- `CredentialStore.get` (lines 168–243): `null` when the id is
absent; otherwise the last-used timestamp is updated and persisted
*before* decryption, then the three fields are decrypted in order
inside one `try` — the first failure aborts the read with `null`. -/
def getCred (encryptionKey : Bytes) (now : Nat) (id : Str) (st : StoreState) :
    Option GetResult × StoreState :=
  match mapGet st.credentials id with
  | none => (none, st)
  | some credential =>
    let cred' := { credential with lastUsedAt := now }
    let creds := mapSet st.credentials id cred'
    let st' := { st with credentials := creds, persistedCredentials := creds }
    let dec : Except DecErr GetResult := do
      let pw ← decOptField encryptionKey cred'.iv cred'.encryptedPassword
      let pk ← decOptField encryptionKey cred'.iv cred'.encryptedPrivateKey
      let ps ← decOptField encryptionKey cred'.iv cred'.encryptedPassphrase
      pure { host := cred'.host, port := cred'.port,
             username := cred'.username, authType := cred'.authType,
             password := pw, privateKey := pk, passphrase := ps }
    match dec with
    | .ok r => (some r, st')
    | .error _ => (none, st')

/-- `CredentialStore.has` (lines 248–250). -/
def hasCred (id : Str) (st : StoreState) : Bool :=
  mapHas st.credentials id

/-- `CredentialStore.delete` (lines 255–261): removes the credential
and persists when it was present. -/
def deleteCred (id : Str) (st : StoreState) : Bool × StoreState :=
  if mapHas st.credentials id then
    let creds := mapDelete st.credentials id
    (true, { st with credentials := creds, persistedCredentials := creds })
  else (false, st)

/-- `CredentialStore.getConnections` (lines 321–323). -/
def getConnections (st : StoreState) : List SavedConnectionInfo :=
  st.connections.map Prod.snd

/-- `CredentialStore.deleteConnection` (lines 347–355): deleting a
connection also deletes its credential and persists the connection
collection. -/
def deleteConnection (id : Str) (st : StoreState) : Bool × StoreState :=
  if mapHas st.connections id then
    let st1 := { st with connections := mapDelete st.connections id }
    let st2 := (deleteCred id st1).2
    (true, { st2 with persistedConnections := st2.connections })
  else (false, st)

/-- The connection synthesized by `migrateFromCredentials` for a
credential id with no connection entry (lines 401–411). -/
def synthConn (id : Str) (credential : StoredCredential) : SavedConnectionInfo :=
  { id := id,
    name := credential.username ++ '@' :: credential.host,
    host := credential.host, port := credential.port,
    username := credential.username, authType := credential.authType,
    hasStoredCredentials := true,
    createdAt := credential.createdAt, lastUsedAt := credential.lastUsedAt }

/-- The loop of `migrateFromCredentials` (lines 398–416): walk the
credential entries, adding a synthesized connection for every id not
yet present; the boolean records whether anything was added. -/
def migrateList (conns : List (Str × SavedConnectionInfo)) :
    List (Str × StoredCredential) → List (Str × SavedConnectionInfo) × Bool
  | [] => (conns, false)
  | (id, credential) :: rest =>
    if mapHas conns id then migrateList conns rest
    else ((migrateList (mapSet conns id (synthConn id credential)) rest).1, true)

/-- `CredentialStore.migrateFromCredentials` (lines 395–421): runs the
reconciliation loop and persists the connection collection when it
changed. -/
def migrateFromCredentials (st : StoreState) : StoreState :=
  let r := migrateList st.connections st.credentials
  { st with connections := r.1,
            persistedConnections := if r.2 then r.1 else st.persistedConnections }

/-- Store construction (lines 43–80 as far as state is concerned):
`load()` and `loadConnections()` rebuild the two maps from the
persisted entry lists (`new Map(entries)`), then
`migrateFromCredentials` reconciles. -/
def initStore (diskCreds : List (Str × StoredCredential))
    (diskConns : List (Str × SavedConnectionInfo)) : StoreState :=
  let creds := mapOfList diskCreds
  let conns := mapOfList diskConns
  migrateFromCredentials
    { credentials := creds, connections := conns,
      persistedCredentials := creds, persistedConnections := conns }

/-! ## WebSocketHandler data model (src/unnamed/part_000, lines 425–685) -/

/-- The `type` discriminant of an inbound frame: the three recognized
values, or any other string. -/
inductive FrameType where
  | input
  | resize
  | ping
  | other (raw : Str)
deriving DecidableEq, Repr

/-- An inbound frame after `JSON.parse`: the fields the handler reads,
each possibly absent. -/
structure Frame where
  type : FrameType
  sessionId : Option Str := none
  data : Option Str := none
  cols : Option Nat := none
  rows : Option Nat := none
deriving DecidableEq, Repr

/-- The payload of an error reply, one constructor per distinct error
string the handler sends. -/
inductive ErrKind where
  | invalidFormat
  | unknownType
  | missingFields
  | sessionNotFound
  | shellCreateFailed
  | inputFailed
deriving DecidableEq, Repr

/-- `ServerMessage` frames the handler sends back. -/
inductive ServerMessage where
  | output (sessionId : Str) (data : Str)
  | error (sessionId : Str) (kind : ErrKind)
  | disconnect (sessionId : Str)
  | pong (sessionId : Option Str)
deriving DecidableEq, Repr

/-- The responses of the external `sshManager` collaborator (its
module is not part of the provided sources): whether a session id
resolves, whether its session already has a shell, and whether
`createShell` / `sendInput` succeed. -/
structure Env where
  sessions : Str → Bool
  hasShell : Str → Bool
  createShellOk : Str → Bool
  sendInputOk : Str → Bool

/-- The handler's mutable state: the session-id → socket binding map
(`sessionToWs`), each socket's `ws.sessionId` back-reference, and the
set of sessions whose shell output wiring is set up
(`shellOutputSetup`). Sockets are identified by numbers. -/
structure RelayState where
  sessionToWs : List (Str × Nat)
  wsSession : List (Nat × Str)
  shellOutputSetup : List Str
deriving DecidableEq, Repr

/-- The observable outcome of handling one frame: the new state, the
replies sent (socket, message) in order, and whether the handler
closed the socket (it never does). -/
structure StepResult where
  state : RelayState
  replies : List (Nat × ServerMessage)
  closed : Bool
deriving DecidableEq, Repr

/-- Truthiness of an optional string field (`!sessionId`):
absent and empty are falsy. -/
def truthyS : Option Str → Bool
  | none => false
  | some s => !s.isEmpty

/-- Truthiness of an optional numeric field (`!cols`): absent and `0`
are falsy. -/
def truthyN : Option Nat → Bool
  | none => false
  | some n => !(n == 0)

/-- `ws.sessionId = sessionId` on a numeric-keyed record. -/
def natMapSet (m : List (Nat × Str)) (k : Nat) (v : Str) : List (Nat × Str) :=
  match m with
  | [] => [(k, v)]
  | p :: rest => if p.1 = k then (k, v) :: rest else p :: natMapSet rest k v

/-- `WebSocketHandler.setupShellOutput` (lines 593–628) as far as
state goes: a no-op if wiring is already set up or the session has no
shell; otherwise marks the session as wired.  `hasShellNow` is whether
the session has a shell at this moment (after a successful
`createShell` it does). -/
def setupShellOutput (env : Env) (sid : Str) (hasShellNow : Bool)
    (st : RelayState) : RelayState :=
  if st.shellOutputSetup.contains sid then st
  else if env.sessions sid && hasShellNow then
    { st with shellOutputSetup := sid :: st.shellOutputSetup }
  else st

/-- Bind a socket to a session id (lines 531–532 and 571–572):
`ws.sessionId = sessionId; this.sessionToWs.set(sessionId, ws)`. -/
def bindSocket (wsId : Nat) (sid : Str) (st : RelayState) : RelayState :=
  { st with wsSession := natMapSet st.wsSession wsId sid,
            sessionToWs := mapSet st.sessionToWs sid wsId }

/-- `WebSocketHandler.handleInput` (lines 514–551). -/
def handleInput (env : Env) (wsId : Nat) (f : Frame) (st : RelayState) :
    StepResult :=
  if ¬ (truthyS f.sessionId && truthyS f.data) then
    { state := st, replies := [(wsId, .error [] .missingFields)], closed := false }
  else
    let sid := f.sessionId.getD []
    if ¬ env.sessions sid then
      { state := st, replies := [(wsId, .error sid .sessionNotFound)], closed := false }
    else
      let st1 := bindSocket wsId sid st
      if env.hasShell sid then
        if env.sendInputOk sid then
          { state := st1, replies := [], closed := false }
        else
          { state := st1, replies := [(wsId, .error sid .inputFailed)], closed := false }
      else
        if env.createShellOk sid then
          let st2 := setupShellOutput env sid true st1
          if env.sendInputOk sid then
            { state := st2, replies := [], closed := false }
          else
            { state := st2, replies := [(wsId, .error sid .inputFailed)], closed := false }
        else
          { state := st1, replies := [(wsId, .error sid .shellCreateFailed)], closed := false }

/-- `WebSocketHandler.handleResize` (lines 556–588): invalid requests
and missing sessions are silently ignored; shell-creation failure is
silently ignored too. -/
def handleResize (env : Env) (wsId : Nat) (f : Frame) (st : RelayState) :
    StepResult :=
  if ¬ (truthyS f.sessionId && truthyN f.cols && truthyN f.rows) then
    { state := st, replies := [], closed := false }
  else
    let sid := f.sessionId.getD []
    if ¬ env.sessions sid then
      { state := st, replies := [], closed := false }
    else
      let st1 := bindSocket wsId sid st
      if env.hasShell sid then
        { state := st1, replies := [], closed := false }
      else if env.createShellOk sid then
        { state := setupShellOutput env sid true st1, replies := [], closed := false }
      else
        { state := st1, replies := [], closed := false }

/-- Message receipt (lines 464–471 and 492–509): `none` stands for a
frame `JSON.parse` rejected, answered with an `Invalid message format`
error; otherwise dispatch on the frame type, unknown types answered
with an `Unknown message type` error.  No branch closes the socket. -/
def handleMessage (env : Env) (wsId : Nat) (msg : Option Frame)
    (st : RelayState) : StepResult :=
  match msg with
  | none =>
    { state := st, replies := [(wsId, .error [] .invalidFormat)], closed := false }
  | some f =>
    match f.type with
    | .input => handleInput env wsId f st
    | .resize => handleResize env wsId f st
    | .ping =>
      { state := st, replies := [(wsId, .pong f.sessionId)], closed := false }
    | .other _ =>
      { state := st, replies := [(wsId, .error [] .unknownType)], closed := false }

/-- The shell `data` callback (lines 604–614): look up the socket
currently bound to the session and push the output to it if it is
open; deliver nothing otherwise.  The callback exists only once the
session's output wiring is set up. -/
def deliverOutput (st : RelayState) (isOpen : Nat → Bool) (sid : Str)
    (data : Str) : List (Nat × ServerMessage) :=
  if st.shellOutputSetup.contains sid then
    match mapGet st.sessionToWs sid with
    | some wsId => if isOpen wsId then [(wsId, .output sid data)] else []
    | none => []
  else []

/-! ## Liveness sweep (lines 458–462 and 653–663) -/

/-- The events one socket observes: a tick of the 30-second sweep, or
a pong arriving from the client. -/
inductive SockEvent where
  | sweep
  | pong
deriving DecidableEq, Repr

/-- One socket's liveness state: its `isAlive` flag and whether the
sweep has terminated it. -/
structure SockState where
  isAlive : Bool
  terminated : Bool
deriving DecidableEq, Repr

/-- `ws.isAlive = true` on connection (line 458). -/
def connState : SockState := { isAlive := true, terminated := false }

/-- One event step: a pong sets `isAlive` (lines 460–462); a sweep
tick terminates a socket whose flag is still down, otherwise lowers
the flag and pings (lines 654–662).  A terminated socket is gone from
`wss.clients`. -/
def sockStep (s : SockState) : SockEvent → SockState
  | .pong => if s.terminated then s else { s with isAlive := true }
  | .sweep =>
    if s.terminated then s
    else if s.isAlive then { s with isAlive := false }
    else { s with terminated := true }

/-- Whether a sweep tick sends a ping to this socket. -/
def sweepPings (s : SockState) : Bool := !s.terminated && s.isAlive

/-- A socket's state after a sequence of events. -/
def runSock (s : SockState) (es : List SockEvent) : SockState :=
  es.foldl sockStep s

/-- Whether an `Except` computation failed. -/
def isErr {e a : Type} : Except e a → Bool
  | .error _ => true
  | .ok _ => false

/-- The IV component of a stored `iv:cipher:tag` blob. -/
def ivPart (blob : Str) : Str := (splitColon blob).headD []

/-! ## Concrete instances used in closed witness statements -/

/-- A concrete random source whose outputs are single bytes. -/
def rngW : Nat → Bytes := fun n => [n % 256]

/-- A concrete encryption key. -/
def keyW : Bytes := [1, 2]

/-- The empty store. -/
def stEmpty : StoreState :=
  { credentials := [], connections := [],
    persistedCredentials := [], persistedConnections := [] }

/-- A concrete credential id. -/
def idW : Str := ['c']

/-- A concrete save configuration with no secret fields. -/
def cfgW : SaveConfig :=
  { host := ['h'], port := 22, username := ['u'], authType := .password }

/-- A concrete stored credential whose encrypted password blob is
malformed (not valid hex, no three-part layout), so that decryption
of it fails. -/
def badCredW : StoredCredential :=
  { id := idW, host := ['h'], port := 22, username := ['u'],
    authType := .password, encryptedPassword := some ['x'],
    iv := [], createdAt := 0, lastUsedAt := 0 }

/-- A store holding only `badCredW`. -/
def badStW : StoreState :=
  { credentials := [(idW, badCredW)], connections := [],
    persistedCredentials := [(idW, badCredW)], persistedConnections := [] }

/-- A relay environment in which every session exists, has a shell,
and accepts input. -/
def envW : Env :=
  { sessions := fun _ => true, hasShell := fun _ => true,
    createShellOk := fun _ => true, sendInputOk := fun _ => true }

/-- The empty relay state. -/
def relEmpty : RelayState :=
  { sessionToWs := [], wsSession := [], shellOutputSetup := [] }


/-- A concrete save configuration with all three secret fields present. -/
def cfgSecrets : SaveConfig :=
  { host := ['h'], port := 22, username := ['u'], authType := .password,
    password := some [5], privateKey := some [6], passphrase := some [7] }

/-- A concrete saved connection for `idW`. -/
def connW : SavedConnectionInfo :=
  { id := idW, name := ['u', '@', 'h'], host := ['h'], port := 22,
    username := ['u'], authType := .password, hasStoredCredentials := true,
    createdAt := 0, lastUsedAt := 0 }

/-- A store holding a connection and a credential for `idW`. -/
def stConnW : StoreState :=
  { credentials := [(idW, badCredW)], connections := [(idW, connW)],
    persistedCredentials := [(idW, badCredW)],
    persistedConnections := [(idW, connW)] }

/-- A resize frame with a missing `cols` field. -/
def frameBadResize : Frame :=
  { type := .resize, sessionId := some ['s'], rows := some 2 }

/-- A well-formed input frame for session `s`. -/
def frameInputW : Frame :=
  { type := .input, sessionId := some ['s'], data := some ['x'] }

/-! ## Basic lemmas about the building blocks -/

theorem mapGet_mapSet_self {α : Type} (m : List (Str × α)) (k : Str) (v : α) :
    mapGet (mapSet m k v) k = some v := by
  induction m with
  | nil => simp [mapSet, mapGet]
  | cons p rest ih =>
    by_cases hp : p.1 = k
    · simp [mapSet, mapGet, hp]
    · simp [mapSet, mapGet, hp, ih]

theorem mapGet_mapSet_ne {α : Type} (m : List (Str × α)) (k k' : Str) (v : α)
    (h : k ≠ k') : mapGet (mapSet m k v) k' = mapGet m k' := by
  induction m with
  | nil => simp [mapSet, mapGet, h]
  | cons p rest ih =>
    by_cases hp : p.1 = k
    · simp [mapSet, mapGet, hp, h]
    · by_cases hp' : p.1 = k'
      · simp [mapSet, mapGet, hp, hp', Ne.symm h]
      · simp [mapSet, mapGet, hp, hp', ih]

theorem mapHas_mapDelete {α : Type} (m : List (Str × α)) (k : Str) :
    mapHas (mapDelete m k) k = false := by
  induction m with
  | nil => rfl
  | cons p rest ih =>
    by_cases hp : p.1 = k
    · simp [mapDelete, hp, ih]
    · simp [mapDelete, mapHas, hp, ih]

/-! ## Hex round-trip and colon-freeness -/

theorem hexVal_hexDigit_lt : ∀ m < 16, hexVal (hexDigit m) = some m := by
  decide

theorem hexVal_hexDigit (n : Nat) (h : n < 16) : hexVal (hexDigit n) = some n :=
  hexVal_hexDigit_lt n h

theorem hexDigit_ne_colon_lt : ∀ m < 16, hexDigit m ≠ ':' := by
  decide

theorem hexDigit_ne_colon_mod (n : Nat) : hexDigit (n % 16) ≠ ':' :=
  hexDigit_ne_colon_lt (n % 16) (Nat.mod_lt _ (by decide))

theorem hexEncode_no_colon (bs : Bytes) : ∀ c ∈ hexEncode bs, c ≠ ':' := by
  induction bs with
  | nil => intro c hc; simp [hexEncode] at hc
  | cons b rest ih =>
    intro c hc
    simp only [hexEncode, byteHex, List.mem_append, List.mem_cons,
      List.not_mem_nil, or_false] at hc
    rcases hc with (h | h) | h
    · exact h ▸ hexDigit_ne_colon_mod _
    · exact h ▸ hexDigit_ne_colon_mod _
    · exact ih c h

theorem hexDecode_hexEncode (bs : Bytes) (h : WFBytes bs) :
    hexDecode (hexEncode bs) = some bs := by
  induction bs with
  | nil => rfl
  | cons b rest ih =>
    have hb : b < 256 := h b (List.mem_cons_self _ _)
    have hrest : WFBytes rest := fun x hx => h x (List.mem_cons_of_mem _ hx)
    have hhi : b / 16 % 16 = b / 16 := Nat.mod_eq_of_lt (by omega)
    have h1 : hexVal (hexDigit (b / 16 % 16)) = some (b / 16) := by
      rw [hhi]; exact hexVal_hexDigit _ (by omega)
    have h2 : hexVal (hexDigit (b % 16)) = some (b % 16) :=
      hexVal_hexDigit _ (Nat.mod_lt _ (by decide))
    have hval : b / 16 * 16 + b % 16 = b := by omega
    simp [hexEncode, byteHex, hexDecode, h1, h2, ih hrest, hval]

/-! ## `splitColon` lemmas -/

theorem splitColon_ne_nil (cs : Str) : splitColon cs ≠ [] := by
  cases cs with
  | nil => simp [splitColon]
  | cons c rest =>
    by_cases hc : c = ':'
    · simp [splitColon, hc]
    · simp only [splitColon, if_neg hc]
      cases splitColon rest <;> simp

theorem splitColon_no_colon (a : Str) (ha : ∀ c ∈ a, c ≠ ':') :
    splitColon a = [a] := by
  induction a with
  | nil => rfl
  | cons c rest ih =>
    have hc : ¬ c = ':' := ha c (List.mem_cons_self _ _)
    have hrest : splitColon rest = [rest] :=
      ih (fun x hx => ha x (List.mem_cons_of_mem _ hx))
    simp [splitColon, hc, hrest]

theorem splitColon_append (a rest : Str) (ha : ∀ c ∈ a, c ≠ ':') :
    splitColon (a ++ ':' :: rest) = a :: splitColon rest := by
  induction a with
  | nil => simp [splitColon]
  | cons c a' ih =>
    have hc : ¬ c = ':' := ha c (List.mem_cons_self _ _)
    have ih' : splitColon (a' ++ ':' :: rest) = a' :: splitColon rest :=
      ih (fun x hx => ha x (List.mem_cons_of_mem _ hx))
    simp [splitColon, hc, ih']

/-! ## Cipher lemmas -/

theorem xorKs_xorKs (key iv : Bytes) :
    ∀ (i : Nat) (p : Bytes), xorKs key iv i (xorKs key iv i p) = p := by
  intro i p
  induction p generalizing i with
  | nil => rfl
  | cons b rest ih =>
    simp [xorKs, ih, Nat.xor_assoc]

theorem wf_xorKs (key iv : Bytes) :
    ∀ (i : Nat) (p : Bytes), WFBytes p → WFBytes (xorKs key iv i p) := by
  intro i p hp
  induction p generalizing i with
  | nil => intro b hb; simp [xorKs] at hb
  | cons b rest ih =>
    intro x hx
    simp only [xorKs, List.mem_cons] at hx
    rcases hx with h | h
    · subst h
      have hb : b < 256 := hp b (List.mem_cons_self _ _)
      have hk : ksByte key iv i < 256 := Nat.mod_lt _ (by decide)
      calc b ^^^ ksByte key iv i < 2 ^ 8 :=
            Nat.xor_lt_two_pow (by simpa using hb) (by simpa using hk)
        _ = 256 := by norm_num
    · exact ih (i + 1) (fun y hy => hp y (List.mem_cons_of_mem _ hy)) x h

theorem wf_tagBytes (key iv ct : Bytes) : WFBytes (tagBytes key iv ct) := by
  intro b hb
  simp only [tagBytes, List.mem_map] at hb
  obtain ⟨i, _, rfl⟩ := hb
  exact Nat.mod_lt _ (by decide)

/-! ## Vault lemmas -/

theorem mkBlob_eq (key iv p : Bytes) :
    mkBlob key iv p =
      hexEncode iv ++ ':' ::
        (hexEncode (xorKs key iv 0 p) ++ ':' ::
          hexEncode (tagBytes key iv (xorKs key iv 0 p))) := by
  simp [mkBlob, encrypt]

theorem splitColon_mkBlob (key iv p : Bytes) :
    splitColon (mkBlob key iv p) =
      [hexEncode iv, hexEncode (xorKs key iv 0 p),
        hexEncode (tagBytes key iv (xorKs key iv 0 p))] := by
  rw [mkBlob_eq,
    splitColon_append _ _ (hexEncode_no_colon iv),
    splitColon_append _ _ (hexEncode_no_colon _),
    splitColon_no_colon _ (hexEncode_no_colon _)]

theorem decryptField_mkBlob (key iv p : Bytes) (sharedIv : Str)
    (hiv : WFBytes iv) (hp : WFBytes p) :
    decryptField key sharedIv (mkBlob key iv p) = .ok p := by
  have hct : WFBytes (xorKs key iv 0 p) := wf_xorKs key iv 0 p hp
  simp only [decryptField, splitColon_mkBlob]
  simp [decrypt, hexDecode_hexEncode _ hiv, hexDecode_hexEncode _ hct,
    hexDecode_hexEncode _ (wf_tagBytes key iv _), xorKs_xorKs]

theorem decOptField_encField (key : Bytes) (rng : Nat → Bytes) (ctr : Nat)
    (v : Option Bytes) (sharedIv : Str)
    (hv : WFBytes (v.getD [])) (hrng : ∀ n, WFBytes (rng n)) :
    decOptField key sharedIv (encField key rng ctr v).1 =
      .ok (if truthy v then v else none) := by
  by_cases ht : truthy v = true
  · cases v with
    | none => simp [truthy] at ht
    | some p =>
      simp only [encField, ht, if_true, Option.getD_some] at hv ⊢
      simp [decOptField, decryptField_mkBlob key (rng ctr) p sharedIv (hrng ctr) hv, ht,
        Except.map]
  · simp [encField, ht, decOptField]

theorem get_after_save (key : Bytes) (rng : Nat → Bytes) (now now2 : Nat)
    (id : Str) (cfg : SaveConfig) (st : StoreState) (ctr : Nat)
    (hrng : ∀ n, WFBytes (rng n))
    (hpw : WFBytes (cfg.password.getD []))
    (hpk : WFBytes (cfg.privateKey.getD []))
    (hps : WFBytes (cfg.passphrase.getD [])) :
    (getCred key now2 id (save key rng now id cfg st ctr).1).1 =
      some { host := cfg.host, port := cfg.port, username := cfg.username,
             authType := cfg.authType,
             password := if truthy cfg.password then cfg.password else none,
             privateKey := if truthy cfg.privateKey then cfg.privateKey else none,
             passphrase := if truthy cfg.passphrase then cfg.passphrase else none } := by
  have h1 := decOptField_encField key rng ctr cfg.password [] hpw hrng
  have h2 := decOptField_encField key rng
    (encField key rng ctr cfg.password).2 cfg.privateKey [] hpk hrng
  have h3 := decOptField_encField key rng
    (encField key rng (encField key rng ctr cfg.password).2 cfg.privateKey).2
    cfg.passphrase [] hps hrng
  unfold save getCred
  simp only [mapGet_mapSet_self]
  simp [h1, h2, h3, bind, Except.bind, pure, Except.pure]


/-! ## Further map lemmas -/

theorem mapGet_some_mem {α : Type} (m : List (Str × α)) (k : Str) (v : α)
    (h : mapGet m k = some v) : (k, v) ∈ m := by
  induction m with
  | nil => simp [mapGet] at h
  | cons p rest ih =>
    by_cases hp : p.1 = k
    · simp only [mapGet, hp, if_true, Option.some.injEq] at h
      have hpkv : p = (k, v) := by
        calc p = (p.1, p.2) := rfl
          _ = (k, v) := by rw [hp, h]
      rw [← hpkv]
      exact List.mem_cons_self _ _
    · simp only [mapGet, hp, if_false] at h
      exact List.mem_cons_of_mem _ (ih h)

theorem mapHas_false_of_get_none {α : Type} (m : List (Str × α)) (k : Str)
    (h : mapGet m k = none) : mapHas m k = false := by
  induction m with
  | nil => rfl
  | cons p rest ih =>
    by_cases hp : p.1 = k
    · simp [mapGet, hp] at h
    · simp only [mapGet, hp, if_false] at h
      simp [mapHas, hp, ih h]

theorem mapHas_true_exists {α : Type} (m : List (Str × α)) (k : Str)
    (h : mapHas m k = true) : ∃ p ∈ m, p.1 = k := by
  induction m with
  | nil => simp [mapHas] at h
  | cons p rest ih =>
    by_cases hp : p.1 = k
    · exact ⟨p, List.mem_cons_self _ _, hp⟩
    · simp only [mapHas, hp, decide_False, Bool.false_or] at h
      obtain ⟨q, hq, hqk⟩ := ih h
      exact ⟨q, List.mem_cons_of_mem _ hq, hqk⟩

theorem mem_mapDelete {α : Type} (m : List (Str × α)) (k : Str) (p : Str × α)
    (h : p ∈ mapDelete m k) : p ∈ m ∧ p.1 ≠ k := by
  induction m with
  | nil => simp [mapDelete] at h
  | cons q rest ih =>
    by_cases hq : q.1 = k
    · simp only [mapDelete, hq, if_true] at h
      obtain ⟨hm, hk⟩ := ih h
      exact ⟨List.mem_cons_of_mem _ hm, hk⟩
    · simp only [mapDelete, hq, if_false, List.mem_cons] at h
      rcases h with h | h
      · subst h; exact ⟨List.mem_cons_self _ _, hq⟩
      · obtain ⟨hm, hk⟩ := ih h
        exact ⟨List.mem_cons_of_mem _ hm, hk⟩

theorem mapHas_mapSet_mono {α : Type} (m : List (Str × α)) (k k' : Str) (v : α)
    (h : mapHas m k = true) : mapHas (mapSet m k' v) k = true := by
  induction m with
  | nil => simp [mapHas] at h
  | cons p rest ih =>
    by_cases hp : p.1 = k'
    · by_cases hk : k' = k
      · simp [mapSet, mapHas, hp, hk]
      · have hpk : ¬ (p.1 = k) := by rw [hp]; exact hk
        simp only [mapHas, hpk, decide_False, Bool.false_or] at h
        simp [mapSet, mapHas, hp, hk, h]
    · by_cases hpk : p.1 = k
      · have hkk : ¬ k = k' := fun hc => hp (hpk.symm ▸ hc)
        simp [mapSet, mapHas, hp, hpk, hkk]
      · simp only [mapHas, hpk, decide_False, Bool.false_or] at h
        simp [mapSet, mapHas, hp, hpk, ih h]

theorem mapHas_mapSet_self {α : Type} (m : List (Str × α)) (k : Str) (v : α) :
    mapHas (mapSet m k v) k = true := by
  induction m with
  | nil => simp [mapSet, mapHas]
  | cons p rest ih =>
    by_cases hp : p.1 = k
    · simp [mapSet, mapHas, hp]
    · simp [mapSet, mapHas, hp, ih]

/-! ## Hex injectivity and the shape of a saved credential -/

theorem hexEncode_inj {a b : Bytes} (ha : WFBytes a) (hb : WFBytes b)
    (h : hexEncode a = hexEncode b) : a = b := by
  have hda := hexDecode_hexEncode a ha
  rw [h, hexDecode_hexEncode b hb] at hda
  exact ((Option.some.injEq _ _).mp hda).symm

theorem ivPart_mkBlob (key iv p : Bytes) : ivPart (mkBlob key iv p) = hexEncode iv := by
  simp [ivPart, splitColon_mkBlob]

theorem mkBlob_iv_inj {key iv iv' p p' : Bytes} (hiv : WFBytes iv) (hiv' : WFBytes iv')
    (hne : iv ≠ iv') : mkBlob key iv p ≠ mkBlob key iv' p' := by
  intro h
  have := congrArg ivPart h
  rw [ivPart_mkBlob, ivPart_mkBlob] at this
  exact hne (hexEncode_inj hiv hiv' this)

theorem save_cred_truthy (key : Bytes) (rng : Nat → Bytes) (now : Nat)
    (id : Str) (cfg : SaveConfig) (st : StoreState) (ctr : Nat)
    (hpw : truthy cfg.password = true) (hpk : truthy cfg.privateKey = true)
    (hps : truthy cfg.passphrase = true) :
    mapGet (save key rng now id cfg st ctr).1.credentials id = some
      { id := id, host := cfg.host, port := cfg.port, username := cfg.username,
        authType := cfg.authType,
        encryptedPassword := some (mkBlob key (rng ctr) (cfg.password.getD [])),
        encryptedPrivateKey := some (mkBlob key (rng (ctr + 1)) (cfg.privateKey.getD [])),
        encryptedPassphrase := some (mkBlob key (rng (ctr + 2)) (cfg.passphrase.getD [])),
        iv := [], createdAt := now, lastUsedAt := now } ∧
    (save key rng now id cfg st ctr).2 = ctr + 3 := by
  unfold save
  simp [encField, hpw, hpk, hps, mapGet_mapSet_self]

/-! ## Migration lemmas -/

theorem migrateList_get_not_mem (l : List (Str × StoredCredential)) (id : Str) :
    ∀ conns, id ∉ l.map Prod.fst →
      mapGet (migrateList conns l).1 id = mapGet conns id := by
  induction l with
  | nil => intro conns _; rfl
  | cons p rest ih =>
    intro conns h
    obtain ⟨k, credential⟩ := p
    have hid : ¬ (k = id) := fun hc => h (by rw [List.map_cons, hc]; exact List.mem_cons_self _ _)
    have hrest : id ∉ rest.map Prod.fst :=
      fun hc => h (by rw [List.map_cons]; exact List.mem_cons_of_mem _ hc)
    by_cases hk : mapHas conns k
    · simp only [migrateList, hk, if_true]
      exact ih conns hrest
    · simp only [migrateList, hk, Bool.false_eq_true, if_false]
      rw [ih _ hrest]
      exact mapGet_mapSet_ne _ _ _ _ hid

theorem migrateList_get_new (l : List (Str × StoredCredential)) (id : Str)
    (cred : StoredCredential) :
    ∀ conns, (l.map Prod.fst).Nodup → mapGet conns id = none →
      mapGet l id = some cred →
      mapGet (migrateList conns l).1 id = some (synthConn id cred) := by
  induction l with
  | nil => intro conns _ _ hc; simp [mapGet] at hc
  | cons p rest ih =>
    intro conns hnodup hn hc
    obtain ⟨k, credential⟩ := p
    simp only [List.map_cons, List.nodup_cons] at hnodup
    by_cases hk : k = id
    · subst hk
      have hcv : credential = cred := by simpa [mapGet] using hc
      subst hcv
      have hhas : mapHas conns k = false := mapHas_false_of_get_none _ _ hn
      simp only [migrateList, hhas, Bool.false_eq_true, if_false]
      rw [migrateList_get_not_mem _ _ _ hnodup.1]
      exact mapGet_mapSet_self _ _ _
    · have hc' : mapGet rest id = some cred := by
        simpa [mapGet, hk] using hc
      by_cases hh : mapHas conns k
      · simp only [migrateList, hh, if_true]
        exact ih _ hnodup.2 hn hc'
      · simp only [migrateList, hh, Bool.false_eq_true, if_false]
        have hn' : mapGet (mapSet conns k (synthConn k credential)) id = none := by
          rw [mapGet_mapSet_ne _ _ _ _ hk]
          exact hn
        exact ih _ hnodup.2 hn' hc'

theorem migrateList_has_mono (l : List (Str × StoredCredential)) (k : Str) :
    ∀ conns, mapHas conns k = true → mapHas (migrateList conns l).1 k = true := by
  induction l with
  | nil => intro conns h; exact h
  | cons p rest ih =>
    intro conns h
    obtain ⟨k', credential⟩ := p
    by_cases hk' : mapHas conns k'
    · simp only [migrateList, hk', if_true]
      exact ih _ h
    · simp only [migrateList, hk', Bool.false_eq_true, if_false]
      exact ih _ (mapHas_mapSet_mono _ _ _ _ h)

theorem migrateList_has_all (l : List (Str × StoredCredential))
    (p : Str × StoredCredential) :
    ∀ conns, p ∈ l → mapHas (migrateList conns l).1 p.1 = true := by
  induction l with
  | nil => intro conns hp; simp at hp
  | cons q rest ih =>
    intro conns hp
    obtain ⟨k', credential⟩ := q
    rcases List.mem_cons.mp hp with h | h
    · subst h
      by_cases hk' : mapHas conns k'
      · simp only [migrateList, hk', if_true]
        exact migrateList_has_mono _ _ _ hk'
      · simp only [migrateList, hk', Bool.false_eq_true, if_false]
        exact migrateList_has_mono _ _ _ (mapHas_mapSet_self _ _ _)
    · by_cases hk' : mapHas conns k'
      · simp only [migrateList, hk', if_true]
        exact ih _ h
      · simp only [migrateList, hk', Bool.false_eq_true, if_false]
        exact ih _ h

theorem migrateList_migrated (l : List (Str × StoredCredential))
    (p : Str × StoredCredential) :
    ∀ conns, p ∈ l → mapHas conns p.1 = false →
      (migrateList conns l).2 = true := by
  induction l with
  | nil => intro conns hp; simp at hp
  | cons q rest ih =>
    intro conns hp hmiss
    obtain ⟨k', credential⟩ := q
    rcases List.mem_cons.mp hp with h | h
    · subst h
      simp [migrateList, hmiss]
    · by_cases hk' : mapHas conns k'
      · simp only [migrateList, hk', if_true]
        exact ih _ h hmiss
      · simp [migrateList, hk']

theorem mem_mapSet_cases {α : Type} (m : List (Str × α)) (k : Str) (v : α)
    (q : Str × α) (hq : q ∈ mapSet m k v) : q = (k, v) ∨ q ∈ m := by
  induction m with
  | nil =>
    simp only [mapSet, List.mem_singleton] at hq
    exact Or.inl hq
  | cons p rest ih =>
    by_cases hp : p.1 = k
    · simp only [mapSet, hp, if_true, List.mem_cons] at hq
      rcases hq with h | h
      · exact Or.inl h
      · exact Or.inr (List.mem_cons_of_mem _ h)
    · simp only [mapSet, hp, if_false, List.mem_cons] at hq
      rcases hq with h | h
      · exact Or.inr (h ▸ List.mem_cons_self _ _)
      · rcases ih h with h' | h'
        · exact Or.inl h'
        · exact Or.inr (List.mem_cons_of_mem _ h')

theorem nodup_keys_mapSet {α : Type} (m : List (Str × α)) (k : Str) (v : α)
    (h : (m.map Prod.fst).Nodup) : ((mapSet m k v).map Prod.fst).Nodup := by
  induction m with
  | nil => simp [mapSet]
  | cons p rest ih =>
    simp only [List.map_cons, List.nodup_cons] at h
    by_cases hp : p.1 = k
    · simp only [mapSet, hp, if_true, List.map_cons, List.nodup_cons]
      exact ⟨hp ▸ h.1, h.2⟩
    · simp only [mapSet, hp, if_false, List.map_cons, List.nodup_cons]
      refine ⟨?_, ih h.2⟩
      intro hc
      rcases List.mem_map.mp hc with ⟨q, hq, hqk⟩
      rcases mem_mapSet_cases rest k v q hq with h1 | h2
      · exact hp (by rw [← hqk, h1])
      · exact h.1 (List.mem_map.mpr ⟨q, h2, hqk⟩)

theorem nodup_keys_mapOfList {α : Type} (l : List (Str × α)) :
    ((mapOfList l).map Prod.fst).Nodup := by
  suffices h : ∀ acc : List (Str × α), (acc.map Prod.fst).Nodup →
      ((l.foldl (fun m p => mapSet m p.1 p.2) acc).map Prod.fst).Nodup by
    exact h [] (by simp)
  induction l with
  | nil => intro acc hacc; exact hacc
  | cons p rest ih =>
    intro acc hacc
    exact ih _ (nodup_keys_mapSet _ _ _ hacc)

/-! ## Relay lemmas -/

theorem handleInput_closed (env : Env) (wsId : Nat) (f : Frame) (st : RelayState) :
    (handleInput env wsId f st).closed = false := by
  unfold handleInput
  dsimp only
  split_ifs <;> rfl

theorem handleResize_closed (env : Env) (wsId : Nat) (f : Frame) (st : RelayState) :
    (handleResize env wsId f st).closed = false := by
  unfold handleResize
  dsimp only
  split_ifs <;> rfl

theorem handleMessage_closed (env : Env) (wsId : Nat) (msg : Option Frame)
    (st : RelayState) : (handleMessage env wsId msg st).closed = false := by
  cases msg with
  | none => rfl
  | some f =>
    cases hft : f.type with
    | input => simp [handleMessage, hft, handleInput_closed]
    | resize => simp [handleMessage, hft, handleResize_closed]
    | ping => simp [handleMessage, hft]
    | other raw => simp [handleMessage, hft]

theorem setupShellOutput_sessionToWs (env : Env) (sid : Str) (b : Bool)
    (st : RelayState) :
    (setupShellOutput env sid b st).sessionToWs = st.sessionToWs := by
  unfold setupShellOutput
  split_ifs <;> rfl

theorem handleInput_binds (env : Env) (wsId : Nat) (f : Frame) (st : RelayState)
    (sid : Str) (hsid : f.sessionId = some sid)
    (ht : (truthyS f.sessionId && truthyS f.data) = true)
    (hsess : env.sessions sid = true) :
    mapGet (handleInput env wsId f st).state.sessionToWs sid = some wsId := by
  have hgd : f.sessionId.getD [] = sid := by rw [hsid]; rfl
  unfold handleInput
  dsimp only
  rw [hgd, ht, hsess]
  simp only [eq_self_iff_true, not_true, if_false]
  split_ifs <;>
    simp [setupShellOutput_sessionToWs, bindSocket, mapGet_mapSet_self]

theorem handleResize_binds (env : Env) (wsId : Nat) (f : Frame) (st : RelayState)
    (sid : Str) (hsid : f.sessionId = some sid)
    (ht : (truthyS f.sessionId && truthyN f.cols && truthyN f.rows) = true)
    (hsess : env.sessions sid = true) :
    mapGet (handleResize env wsId f st).state.sessionToWs sid = some wsId := by
  have hgd : f.sessionId.getD [] = sid := by rw [hsid]; rfl
  unfold handleResize
  dsimp only
  rw [hgd, ht, hsess]
  simp only [eq_self_iff_true, not_true, if_false]
  split_ifs <;>
    simp [setupShellOutput_sessionToWs, bindSocket, mapGet_mapSet_self]

theorem handleMessage_binds (env : Env) (wsId : Nat) (f : Frame) (st : RelayState)
    (sid : Str) (hsid : f.sessionId = some sid)
    (hbind : (f.type = .input ∧ (truthyS f.sessionId && truthyS f.data) = true) ∨
             (f.type = .resize ∧
               (truthyS f.sessionId && truthyN f.cols && truthyN f.rows) = true))
    (hsess : env.sessions sid = true) :
    mapGet (handleMessage env wsId (some f) st).state.sessionToWs sid = some wsId := by
  rcases hbind with ⟨hft, ht⟩ | ⟨hft, ht⟩
  · simp only [handleMessage, hft]
    exact handleInput_binds env wsId f st sid hsid ht hsess
  · simp only [handleMessage, hft]
    exact handleResize_binds env wsId f st sid hsid ht hsess

/-! ## Liveness lemmas -/

theorem sockStep_terminated (s : SockState) (e : SockEvent)
    (h : s.terminated = true) : (sockStep s e).terminated = true := by
  cases e <;> simp [sockStep, h]

theorem runSock_terminated (es : List SockEvent) :
    ∀ s : SockState, s.terminated = true → (runSock s es).terminated = true := by
  induction es with
  | nil => intro s h; exact h
  | cons e rest ih =>
    intro s h
    exact ih _ (sockStep_terminated s e h)

/-! ## Claim theorems -/

theorem rngW_wf : ∀ n, WFBytes (rngW n) := by
  intro n b hb
  simp only [rngW, List.mem_singleton] at hb
  omega

/-- **C1** (Vault round-trip): for every id and every present
(non-empty) secret value `p`, `save(id, {..., password: p})` followed
by `get(id)` returns a credential whose `password` field equals `p`;
the same holds for `privateKey` and for `passphrase`. -/
theorem C1_vault_round_trip (key p : Bytes) (rng : Nat → Bytes)
    (now now2 : Nat) (id : Str) (cfg : SaveConfig) (st : StoreState) (ctr : Nat)
    (hrng : ∀ n, WFBytes (rng n)) (hp : p ≠ []) (hwp : WFBytes p)
    (hpw : WFBytes (cfg.password.getD []))
    (hpk : WFBytes (cfg.privateKey.getD []))
    (hps : WFBytes (cfg.passphrase.getD [])) :
    ((getCred key now2 id
        (save key rng now id { cfg with password := some p } st ctr).1).1.map
      (·.password) = some (some p)) ∧
    ((getCred key now2 id
        (save key rng now id { cfg with privateKey := some p } st ctr).1).1.map
      (·.privateKey) = some (some p)) ∧
    ((getCred key now2 id
        (save key rng now id { cfg with passphrase := some p } st ctr).1).1.map
      (·.passphrase) = some (some p)) := by
  have ht : truthy (some p) = true := by
    cases p with
    | nil => exact absurd rfl hp
    | cons a l => simp [truthy]
  refine ⟨?_, ?_, ?_⟩
  · rw [get_after_save key rng now now2 id _ st ctr hrng (by simpa using hwp)
      (by simpa using hpk) (by simpa using hps)]
    simp [ht]
  · rw [get_after_save key rng now now2 id _ st ctr hrng (by simpa using hpw)
      (by simpa using hwp) (by simpa using hps)]
    simp [ht]
  · rw [get_after_save key rng now now2 id _ st ctr hrng (by simpa using hpw)
      (by simpa using hpk) (by simpa using hwp)]
    simp [ht]

/-- Closed witness for `C1_vault_round_trip`. -/
theorem C1_vault_round_trip_witness :
    ((getCred keyW 1 idW
        (save keyW rngW 0 idW { cfgW with password := some [5] } stEmpty 0).1).1.map
      (·.password) = some (some [5])) ∧
    ((getCred keyW 1 idW
        (save keyW rngW 0 idW { cfgW with privateKey := some [5] } stEmpty 0).1).1.map
      (·.privateKey) = some (some [5])) ∧
    ((getCred keyW 1 idW
        (save keyW rngW 0 idW { cfgW with passphrase := some [5] } stEmpty 0).1).1.map
      (·.passphrase) = some (some [5])) :=
  C1_vault_round_trip keyW [5] rngW 0 1 idW cfgW stEmpty 0 rngW_wf
    (by decide) (by decide) (by decide) (by decide) (by decide)

/-- **C10** (empty-string secrets are treated as absent): saving with
an empty-string secret is byte-for-byte identical to omitting the
field — no encrypted field is stored for it — and a subsequent get
returns a credential without that field. -/
theorem C10_empty_secret_absent (key : Bytes) (rng : Nat → Bytes)
    (now now2 : Nat) (id : Str) (cfg : SaveConfig) (st : StoreState) (ctr : Nat)
    (hrng : ∀ n, WFBytes (rng n))
    (hpw : WFBytes (cfg.password.getD []))
    (hpk : WFBytes (cfg.privateKey.getD []))
    (hps : WFBytes (cfg.passphrase.getD [])) :
    (save key rng now id { cfg with password := some [] } st ctr =
      save key rng now id { cfg with password := none } st ctr) ∧
    (save key rng now id { cfg with privateKey := some [] } st ctr =
      save key rng now id { cfg with privateKey := none } st ctr) ∧
    (save key rng now id { cfg with passphrase := some [] } st ctr =
      save key rng now id { cfg with passphrase := none } st ctr) ∧
    ((mapGet (save key rng now id { cfg with password := some [] } st ctr).1.credentials
        id).map (·.encryptedPassword) = some none) ∧
    ((getCred key now2 id
        (save key rng now id { cfg with password := some [] } st ctr).1).1.map
      (·.password) = some none) ∧
    ((getCred key now2 id
        (save key rng now id { cfg with privateKey := some [] } st ctr).1).1.map
      (·.privateKey) = some none) ∧
    ((getCred key now2 id
        (save key rng now id { cfg with passphrase := some [] } st ctr).1).1.map
      (·.passphrase) = some none) := by
  refine ⟨?_, ?_, ?_, ?_, ?_, ?_, ?_⟩
  · unfold save; simp [encField, truthy]
  · unfold save; simp [encField, truthy]
  · unfold save; simp [encField, truthy]
  · unfold save
    simp [encField, truthy, mapGet_mapSet_self]
  · rw [get_after_save key rng now now2 id _ st ctr hrng (by simp [WFBytes])
      (by simpa using hpk) (by simpa using hps)]
    simp [truthy]
  · rw [get_after_save key rng now now2 id _ st ctr hrng (by simpa using hpw)
      (by simp [WFBytes]) (by simpa using hps)]
    simp [truthy]
  · rw [get_after_save key rng now now2 id _ st ctr hrng (by simpa using hpw)
      (by simpa using hpk) (by simp [WFBytes])]
    simp [truthy]

/-- Closed witness for `C10_empty_secret_absent`. -/
theorem C10_empty_secret_absent_witness :
    (save keyW rngW 0 idW { cfgW with password := some [] } stEmpty 0 =
      save keyW rngW 0 idW { cfgW with password := none } stEmpty 0) ∧
    ((getCred keyW 1 idW
        (save keyW rngW 0 idW { cfgW with password := some [] } stEmpty 0).1).1.map
      (·.password) = some none) :=
  ⟨(C10_empty_secret_absent keyW rngW 0 1 idW cfgW stEmpty 0 rngW_wf
      (by decide) (by decide) (by decide)).1,
   (C10_empty_secret_absent keyW rngW 0 1 idW cfgW stEmpty 0 rngW_wf
      (by decide) (by decide) (by decide)).2.2.2.2.1⟩

/-- **C2** (fail-closed decryption): if decryption of any one of a
stored credential's encrypted fields fails (authentication-tag
mismatch, malformed blob, …), `get(id)` aborts the whole read and
returns the decryption-failure result `null`; it never returns a
result carrying any decrypted field. -/
theorem C2_fail_closed (key : Bytes) (now : Nat) (id : Str) (st : StoreState)
    (cred : StoredCredential)
    (hc : mapGet st.credentials id = some cred)
    (hfail : isErr (decOptField key cred.iv cred.encryptedPassword) = true ∨
             isErr (decOptField key cred.iv cred.encryptedPrivateKey) = true ∨
             isErr (decOptField key cred.iv cred.encryptedPassphrase) = true) :
    (getCred key now id st).1 = none := by
  unfold getCred
  rw [hc]
  cases hpw : decOptField key cred.iv cred.encryptedPassword with
  | error e => simp [hpw, bind, Except.bind]
  | ok pw =>
    cases hpk : decOptField key cred.iv cred.encryptedPrivateKey with
    | error e => simp [hpw, hpk, bind, Except.bind]
    | ok pk =>
      cases hps : decOptField key cred.iv cred.encryptedPassphrase with
      | error e => simp [hpw, hpk, hps, bind, Except.bind]
      | ok ps =>
        rcases hfail with h | h | h <;>
          simp [hpw, hpk, hps, isErr] at h

/-- Closed witness for `C2_fail_closed`: a credential whose stored
password blob is malformed. -/
theorem C2_fail_closed_witness : (getCred keyW 5 idW badStW).1 = none :=
  C2_fail_closed keyW 5 idW badStW badCredW (by decide) (Or.inl (by decide))

/-- **C3 counterexample**: the claim says a read failing with a
decryption error leaves the in-memory credential store unchanged;
on `badStW` the read fails (`none`) yet the store after `get` differs
from the store before — `get` updated `lastUsedAt` from 0 to 5 and
persisted before attempting decryption. -/
theorem C3_read_atomicity_counterexample :
    (getCred keyW 5 idW badStW).1 = none ∧
    (getCred keyW 5 idW badStW).2 ≠ badStW ∧
    ((mapGet (getCred keyW 5 idW badStW).2.credentials idW).map (·.lastUsedAt) =
      some 5) ∧
    (getCred keyW 5 idW badStW).2.persistedCredentials ≠
      badStW.persistedCredentials := by
  refine ⟨by decide, by decide, by decide, by decide⟩

/-- **C3 (amended)**: `get(id)` updates the credential's last-used
timestamp and persists whenever the id is present — *before*
decryption is attempted — so a read that then fails with a decryption
error still leaves the timestamp updated and the mutated collection
persisted; only a read of an absent id leaves the store unchanged. -/
theorem C3_read_atomicity_amended (key : Bytes) (now : Nat) (id : Str)
    (st : StoreState) :
    (∀ cred, mapGet st.credentials id = some cred →
      (getCred key now id st).2.credentials =
        mapSet st.credentials id { cred with lastUsedAt := now } ∧
      (getCred key now id st).2.persistedCredentials =
        mapSet st.credentials id { cred with lastUsedAt := now } ∧
      (getCred key now id st).2.connections = st.connections) ∧
    (mapGet st.credentials id = none → (getCred key now id st).2 = st) := by
  constructor
  · intro cred hc
    unfold getCred
    rw [hc]
    refine ⟨?_, ?_, ?_⟩ <;>
      · dsimp only
        split <;> rfl
  · intro hn
    unfold getCred
    rw [hn]

/-- Closed witness for `C3_read_atomicity_amended`. -/
theorem C3_read_atomicity_amended_witness :
    (getCred keyW 5 idW badStW).2.credentials =
      mapSet badStW.credentials idW { badCredW with lastUsedAt := 5 } ∧
    (getCred keyW 5 idW stEmpty).2 = stEmpty :=
  ⟨((C3_read_atomicity_amended keyW 5 idW badStW).1 badCredW (by decide)).1,
   (C3_read_atomicity_amended keyW 5 idW stEmpty).2 (by decide)⟩

/-- **C4** (fresh, field-unique initialization vectors): in a save
with all three secret fields present, each field is encrypted under
its own IV drawn from the fresh-random source at consecutive counter
positions, so — the random source never repeating — the three stored
blobs carry pairwise distinct IV components; and a second save of the
same plaintext configuration consumes later positions, so its stored
password ciphertext string differs byte-for-byte from the first
save's. -/
theorem C4_fresh_ivs (key : Bytes) (rng : Nat → Bytes) (now1 now2 : Nat)
    (id : Str) (cfg : SaveConfig) (st : StoreState) (ctr : Nat)
    (hrng : ∀ n, WFBytes (rng n))
    (hpw : truthy cfg.password = true) (hpk : truthy cfg.privateKey = true)
    (hps : truthy cfg.passphrase = true)
    (h01 : rng ctr ≠ rng (ctr + 1)) (h02 : rng ctr ≠ rng (ctr + 2))
    (h12 : rng (ctr + 1) ≠ rng (ctr + 2)) (h03 : rng ctr ≠ rng (ctr + 3)) :
    (∃ cred1, mapGet (save key rng now1 id cfg st ctr).1.credentials id = some cred1 ∧
      ∃ b1 b2 b3, cred1.encryptedPassword = some b1 ∧
        cred1.encryptedPrivateKey = some b2 ∧
        cred1.encryptedPassphrase = some b3 ∧
        ivPart b1 ≠ ivPart b2 ∧ ivPart b1 ≠ ivPart b3 ∧ ivPart b2 ≠ ivPart b3) ∧
    (∃ b1 b1', (mapGet (save key rng now1 id cfg st ctr).1.credentials id).map
        (·.encryptedPassword) = some (some b1) ∧
      (mapGet (save key rng now2 id cfg (save key rng now1 id cfg st ctr).1
          (save key rng now1 id cfg st ctr).2).1.credentials id).map
        (·.encryptedPassword) = some (some b1') ∧
      b1 ≠ b1') := by
  obtain ⟨hc1, hctr1⟩ := save_cred_truthy key rng now1 id cfg st ctr hpw hpk hps
  obtain ⟨hc2, _⟩ := save_cred_truthy key rng now2 id cfg
    (save key rng now1 id cfg st ctr).1 (save key rng now1 id cfg st ctr).2 hpw hpk hps
  rw [hctr1] at hc2
  have hivne : ∀ i j : Nat, rng i ≠ rng j →
      hexEncode (rng i) ≠ hexEncode (rng j) := by
    intro i j hne heq
    exact hne (hexEncode_inj (hrng i) (hrng j) heq)
  constructor
  · refine ⟨_, hc1, _, _, _, rfl, rfl, rfl, ?_, ?_, ?_⟩
    · rw [ivPart_mkBlob, ivPart_mkBlob]
      exact hivne _ _ h01
    · rw [ivPart_mkBlob, ivPart_mkBlob]
      exact hivne _ _ h02
    · rw [ivPart_mkBlob, ivPart_mkBlob]
      exact hivne _ _ h12
  · rw [hctr1]
    refine ⟨_, _, by rw [hc1]; rfl, by rw [hc2]; rfl, ?_⟩
    exact mkBlob_iv_inj (hrng ctr) (hrng (ctr + 3)) h03

/-- Closed witness for `C4_fresh_ivs`. -/
theorem C4_fresh_ivs_witness :
    (∃ cred1, mapGet (save keyW rngW 0 idW cfgSecrets stEmpty 0).1.credentials idW =
        some cred1 ∧
      ∃ b1 b2 b3, cred1.encryptedPassword = some b1 ∧
        cred1.encryptedPrivateKey = some b2 ∧
        cred1.encryptedPassphrase = some b3 ∧
        ivPart b1 ≠ ivPart b2 ∧ ivPart b1 ≠ ivPart b3 ∧ ivPart b2 ≠ ivPart b3) ∧
    (∃ b1 b1', (mapGet (save keyW rngW 0 idW cfgSecrets stEmpty 0).1.credentials
        idW).map (·.encryptedPassword) = some (some b1) ∧
      (mapGet (save keyW rngW 1 idW cfgSecrets
          (save keyW rngW 0 idW cfgSecrets stEmpty 0).1
          (save keyW rngW 0 idW cfgSecrets stEmpty 0).2).1.credentials idW).map
        (·.encryptedPassword) = some (some b1') ∧
      b1 ≠ b1') :=
  C4_fresh_ivs keyW rngW 0 1 idW cfgSecrets stEmpty 0 rngW_wf
    (by decide) (by decide) (by decide)
    (by decide) (by decide) (by decide) (by decide)

/-- **C5** (cascade delete): after `deleteConnection(id)` returns
`true` on a connection with stored credentials, `has(id)` is false
and `getConnections()` no longer contains an entry with that id; the
matching stored credential is deleted together with the connection
info.  The `hids` hypothesis is the store invariant that each
connection record is keyed by its own id. -/
theorem C5_cascade_delete (id : Str) (st : StoreState)
    (hconn : mapHas st.connections id = true)
    (hcred : mapHas st.credentials id = true)
    (hids : ∀ p ∈ st.connections, p.2.id = p.1) :
    (deleteConnection id st).1 = true ∧
    hasCred id (deleteConnection id st).2 = false ∧
    mapHas (deleteConnection id st).2.connections id = false ∧
    (∀ c ∈ getConnections (deleteConnection id st).2, c.id ≠ id) := by
  have hres : deleteConnection id st =
      (true,
        { credentials := mapDelete st.credentials id,
          connections := mapDelete st.connections id,
          persistedCredentials := mapDelete st.credentials id,
          persistedConnections := mapDelete st.connections id }) := by
    unfold deleteConnection deleteCred
    simp [hconn, hcred]
  rw [hres]
  refine ⟨rfl, mapHas_mapDelete _ _, mapHas_mapDelete _ _, ?_⟩
  intro c hcm
  simp only [getConnections, List.mem_map] at hcm
  obtain ⟨p, hp, rfl⟩ := hcm
  obtain ⟨hpm, hpk⟩ := mem_mapDelete _ _ _ hp
  rw [hids p hpm]
  exact hpk

/-- Closed witness for `C5_cascade_delete`. -/
theorem C5_cascade_delete_witness :
    (deleteConnection idW stConnW).1 = true ∧
    hasCred idW (deleteConnection idW stConnW).2 = false ∧
    mapHas (deleteConnection idW stConnW).2.connections idW = false ∧
    (∀ c ∈ getConnections (deleteConnection idW stConnW).2, c.id ≠ idW) :=
  C5_cascade_delete idW stConnW (by decide) (by decide) (by decide)

/-- **C6** (startup reconciliation): after store construction, a
stored-credential id with no matching saved connection gets one
synthesized — display name `username@host`, `hasStoredCredentials`
true — the reconciled collection is persisted, and every stored
credential id has a connection entry. -/
theorem C6_startup_reconciliation (diskCreds : List (Str × StoredCredential))
    (diskConns : List (Str × SavedConnectionInfo)) (id : Str)
    (cred : StoredCredential)
    (hc : mapGet (mapOfList diskCreds) id = some cred)
    (hn : mapGet (mapOfList diskConns) id = none) :
    mapGet (initStore diskCreds diskConns).connections id =
      some (synthConn id cred) ∧
    (synthConn id cred).name = cred.username ++ '@' :: cred.host ∧
    (synthConn id cred).hasStoredCredentials = true ∧
    (initStore diskCreds diskConns).persistedConnections =
      (initStore diskCreds diskConns).connections ∧
    (∀ id2, mapHas (initStore diskCreds diskConns).credentials id2 = true →
      mapHas (initStore diskCreds diskConns).connections id2 = true) := by
  have hnodup := nodup_keys_mapOfList diskCreds
  have hmem : (id, cred) ∈ mapOfList diskCreds := mapGet_some_mem _ _ _ hc
  have hmiss : mapHas (mapOfList diskConns) id = false :=
    mapHas_false_of_get_none _ _ hn
  have hmig : (migrateList (mapOfList diskConns) (mapOfList diskCreds)).2 = true :=
    migrateList_migrated (mapOfList diskCreds) (id, cred) (mapOfList diskConns)
      hmem hmiss
  have hget : mapGet (migrateList (mapOfList diskConns) (mapOfList diskCreds)).1 id =
      some (synthConn id cred) :=
    migrateList_get_new (mapOfList diskCreds) id cred (mapOfList diskConns)
      hnodup hn hc
  refine ⟨?_, rfl, rfl, ?_, ?_⟩
  · unfold initStore migrateFromCredentials
    dsimp only
    exact hget
  · unfold initStore migrateFromCredentials
    dsimp only
    rw [hmig]
    simp
  · intro id2 h2
    unfold initStore migrateFromCredentials at h2 ⊢
    dsimp only at h2 ⊢
    obtain ⟨p, hp, hpk⟩ := mapHas_true_exists _ _ h2
    rw [← hpk]
    exact migrateList_has_all _ p _ hp

/-- Closed witness for `C6_startup_reconciliation`. -/
theorem C6_startup_reconciliation_witness :
    mapGet (initStore [(idW, badCredW)] []).connections idW =
      some (synthConn idW badCredW) ∧
    (synthConn idW badCredW).name = badCredW.username ++ '@' :: badCredW.host ∧
    (synthConn idW badCredW).hasStoredCredentials = true ∧
    (initStore [(idW, badCredW)] []).persistedConnections =
      (initStore [(idW, badCredW)] []).connections ∧
    (∀ id2, mapHas (initStore [(idW, badCredW)] []).credentials id2 = true →
      mapHas (initStore [(idW, badCredW)] []).connections id2 = true) :=
  C6_startup_reconciliation [(idW, badCredW)] [] idW badCredW
    (by decide) (by decide)

/-- **C7 counterexample**: the claim says every malformed frame (a
frame with missing required fields included) is answered with a typed
error frame.  `frameBadResize` is a resize frame missing its `cols`
field, yet the handler replies with nothing at all — invalid resize
requests are silently ignored (the connection does stay open). -/
theorem C7_malformed_frame_counterexample :
    frameBadResize.type = .resize ∧
    frameBadResize.cols = none ∧
    (handleMessage envW 0 (some frameBadResize) relEmpty).replies = [] ∧
    (handleMessage envW 0 (some frameBadResize) relEmpty).closed = false := by
  refine ⟨rfl, rfl, by decide, by decide⟩

/-- **C7 (amended)**: the handler never closes the socket for any
inbound frame; unparseable frames and unrecognized types are answered
with a typed error frame, and an input frame with missing required
fields is answered with a typed error frame — but a resize frame with
missing or invalid fields is silently ignored with no reply. -/
theorem C7_malformed_frame_amended (env : Env) (wsId : Nat)
    (st : RelayState) (msg : Option Frame) :
    (handleMessage env wsId msg st).closed = false ∧
    (msg = none →
      (handleMessage env wsId msg st).replies =
        [(wsId, .error [] .invalidFormat)]) ∧
    (∀ f raw, msg = some f → f.type = .other raw →
      (handleMessage env wsId msg st).replies =
        [(wsId, .error [] .unknownType)]) ∧
    (∀ f, msg = some f → f.type = .input →
      (truthyS f.sessionId && truthyS f.data) = false →
      (handleMessage env wsId msg st).replies =
        [(wsId, .error [] .missingFields)]) ∧
    (∀ f, msg = some f → f.type = .resize →
      (truthyS f.sessionId && truthyN f.cols && truthyN f.rows) = false →
      (handleMessage env wsId msg st).replies = []) := by
  refine ⟨handleMessage_closed env wsId msg st, ?_, ?_, ?_, ?_⟩
  · rintro rfl
    rfl
  · rintro f raw rfl hft
    simp [handleMessage, hft]
  · rintro f rfl hft hmiss
    simp only [handleMessage, hft]
    unfold handleInput
    dsimp only
    rw [hmiss]
    simp
  · rintro f rfl hft hmiss
    simp only [handleMessage, hft]
    unfold handleResize
    dsimp only
    rw [hmiss]
    simp

/-- Closed witness for `C7_malformed_frame_amended`. -/
theorem C7_malformed_frame_amended_witness :
    (handleMessage envW 0 none relEmpty).closed = false ∧
    (handleMessage envW 0 none relEmpty).replies =
      [(0, .error [] .invalidFormat)] :=
  ⟨(C7_malformed_frame_amended envW 0 relEmpty none).1,
   (C7_malformed_frame_amended envW 0 relEmpty none).2.1 rfl⟩

/-- **C8** (binding law, last writer wins): after socket `A` handled
any frame and socket `B` then sent an input or resize frame binding it
to session `sid`, every output event for `sid` delivered in the
resulting state goes only to `B` and never to `A`; and output arriving
when no socket is bound to the session id is dropped. -/
theorem C8_binding_last_writer (env : Env) (A B : Nat) (msgA : Option Frame)
    (fB : Frame) (st : RelayState) (sid : Str) (isOpen : Nat → Bool) (d : Str)
    (hAB : A ≠ B)
    (hsid : fB.sessionId = some sid)
    (hbind : (fB.type = .input ∧ (truthyS fB.sessionId && truthyS fB.data) = true) ∨
             (fB.type = .resize ∧
               (truthyS fB.sessionId && truthyN fB.cols && truthyN fB.rows) = true))
    (hsess : env.sessions sid = true) :
    (∀ p ∈ deliverOutput (handleMessage env B (some fB)
        (handleMessage env A msgA st).state).state isOpen sid d,
      p.1 = B ∧ p.1 ≠ A) ∧
    (∀ st' : RelayState, mapGet st'.sessionToWs sid = none →
      deliverOutput st' isOpen sid d = []) := by
  constructor
  · intro p hp
    have hB := handleMessage_binds env B fB
      (handleMessage env A msgA st).state sid hsid hbind hsess
    unfold deliverOutput at hp
    by_cases hsetup : ((handleMessage env B (some fB)
        (handleMessage env A msgA st).state).state.shellOutputSetup.contains sid) = true
    · rw [if_pos hsetup, hB] at hp
      dsimp only at hp
      by_cases hopen : isOpen B = true
      · rw [if_pos hopen] at hp
        rcases List.mem_singleton.mp hp with rfl
        exact ⟨rfl, Ne.symm hAB⟩
      · rw [if_neg hopen] at hp
        simp at hp
    · rw [if_neg hsetup] at hp
      simp at hp
  · intro st' hnone
    unfold deliverOutput
    by_cases hsetup : (st'.shellOutputSetup.contains sid) = true
    · rw [if_pos hsetup, hnone]
    · rw [if_neg hsetup]

/-- Closed witness for `C8_binding_last_writer`. -/
theorem C8_binding_last_writer_witness :
    (∀ p ∈ deliverOutput (handleMessage envW 1 (some frameInputW)
        (handleMessage envW 0 none relEmpty).state).state (fun _ => true) ['s'] ['o'],
      p.1 = 1 ∧ p.1 ≠ 0) ∧
    (∀ st' : RelayState, mapGet st'.sessionToWs ['s'] = none →
      deliverOutput st' (fun _ => true) ['s'] ['o'] = []) :=
  C8_binding_last_writer envW 0 1 none frameInputW relEmpty ['s']
    (fun _ => true) ['o'] (by decide) (by decide)
    (Or.inl ⟨rfl, by decide⟩) (by decide)

/-- **C9** (liveness sweep): a freshly connected socket that never
answers any ping is terminated by the sweep after two intervals (and
stays terminated); a sweep tick forcibly terminates any socket whose
flag is still down; a sweep tick pings every live open socket and
spares it; a pong raises the flag, so a socket that answered between
sweeps survives them. -/
theorem C9_liveness_sweep (n : Nat) (hn : 2 ≤ n) :
    (runSock connState (List.replicate n .sweep)).terminated = true ∧
    (∀ s : SockState, s.terminated = false → s.isAlive = false →
      (sockStep s .sweep).terminated = true) ∧
    (∀ s : SockState, s.terminated = false → s.isAlive = true →
      sweepPings s = true ∧ (sockStep s .sweep).terminated = false) ∧
    (∀ s : SockState, s.terminated = false → (sockStep s .pong).isAlive = true) ∧
    (runSock connState [.sweep, .pong, .sweep]).terminated = false := by
  refine ⟨?_, ?_, ?_, ?_, by decide⟩
  · obtain ⟨m, rfl⟩ : ∃ m, n = m + 2 := ⟨n - 2, by omega⟩
    exact runSock_terminated (List.replicate m .sweep)
      (sockStep (sockStep connState .sweep) .sweep) (by decide)
  · intro s h1 h2
    simp [sockStep, h1, h2]
  · intro s h1 h2
    simp [sockStep, sweepPings, h1, h2]
  · intro s h1
    simp [sockStep, h1]

/-- Closed witness for `C9_liveness_sweep`. -/
theorem C9_liveness_sweep_witness :
    (runSock connState (List.replicate 2 .sweep)).terminated = true ∧
    (runSock connState [.sweep, .pong, .sweep]).terminated = false :=
  ⟨(C9_liveness_sweep 2 (by decide)).1, (C9_liveness_sweep 2 (by decide)).2.2.2.2⟩
